import Mathlib

/-!
Verification development for the video-pipeline work-item store and orchestrator
(`src/db.py`, `src/pipeline.py`, `src/transcriber.py`).

Shallow embedding conventions:
* The SQLite database is a `DBState`: the three tables as Lean lists of rows.
* `created_at` / `updated_at` are ISO-8601 text in the source, compared
  lexicographically by `ORDER BY`; since `datetime.utcnow().isoformat()` is
  monotone w.r.t. lexicographic order, timestamps are modelled as `Nat`
  supplied explicitly at each call (`now`).
* Collaborator calls (yt-dlp, offmute, DeepGram, Graphiti) are external
  processes; their *outcomes* are parameters of the orchestrator models, and
  the models record exactly the store writes the Python code performs on each
  outcome.
* File-system paths are plain strings joined with "/" (POSIX), and an abstract
  file system is the list of paths of existing files.
-/

/-- One row of the `videos` table (schema in `Database._init_tables`). -/
structure Video where
  id : String
  title : String
  source : String
  status : String
  retries : Nat
  duration_sec : Option Int
  filepath : Option String
  created_at : Nat
  updated_at : Nat
  error : Option String
deriving DecidableEq

/-- One row of the `subtitles` table, `PRIMARY KEY (video_id, start_sec)`. -/
structure Subtitle where
  video_id : String
  start_sec : Int
  end_sec : Int
  text : String
deriving DecidableEq

/-- One row of the `analysis` table, `PRIMARY KEY video_id`. -/
structure AnalysisRow where
  video_id : String
  summary : String
  topics : List String
  key_terms : List String
  chapters : List String
deriving DecidableEq

/-- The whole SQLite database state. -/
structure DBState where
  videos : List Video
  subtitles : List Subtitle
  analysis : List AnalysisRow
deriving DecidableEq

/-- All `videos` rows have pairwise distinct ids (`id TEXT PRIMARY KEY`). -/
def idsUnique (db : DBState) : Prop :=
  db.videos.Pairwise (fun a b => a.id ≠ b.id)

instance decPairwiseIds : (l : List Video) → Decidable (l.Pairwise (fun a b => a.id ≠ b.id))
  | [] => isTrue List.Pairwise.nil
  | a :: l =>
    haveI := decPairwiseIds l
    decidable_of_iff ((∀ b ∈ l, a.id ≠ b.id) ∧ l.Pairwise (fun a b => a.id ≠ b.id))
      (by rw [List.pairwise_cons])

instance (db : DBState) : Decidable (idsUnique db) :=
  decPairwiseIds db.videos

/-- Model of `Database.add_video` (db.py:54-81): `INSERT ... ON CONFLICT(id) DO UPDATE`.
On conflict it overwrites title/source/filepath/duration_sec, resets
status to `todo`, retries to 0, error to NULL, touches `updated_at`,
and leaves `created_at` alone; it never touches the other two tables. -/
def add_video (db : DBState) (id title source : String)
    (filepath : Option String) (duration_sec : Option Int) (now : Nat) : DBState :=
  if db.videos.any (fun v => v.id == id) then
    { db with videos := db.videos.map (fun v =>
        if v.id == id then
          { v with title := title, source := source, status := "todo",
                   filepath := filepath, duration_sec := duration_sec,
                   updated_at := now, retries := 0, error := none }
        else v) }
  else
    { db with videos := db.videos ++
        [{ id := id, title := title, source := source, status := "todo",
           retries := 0, duration_sec := duration_sec, filepath := filepath,
           created_at := now, updated_at := now, error := none }] }

/-- The `(status_to_claim, new_status)` table of `Database.get_next_video`
(db.py:89-100): the if/elif/else chain, the final else covering both
`step=None` and any unrecognized step string. -/
def claimStatuses : Option String → String × String
  | some "transcribe" => ("downloaded", "transcribing")
  | some "download" => ("todo", "downloading")
  | some "ingest" => ("transcribed", "ingesting")
  | _ => ("todo", "downloading")

/-- Model of `SELECT id FROM videos WHERE status=? ORDER BY created_at LIMIT 1`
(db.py:103-106): the first row in table order among those with the given
status and minimal `created_at` (SQLite leaves the order of ties
unspecified; taking the first in table order is one deterministic choice
consistent with it, and every claim below uses only strict comparisons). -/
def oldestWith (status : String) : List Video → Option Video
  | [] => none
  | v :: vs =>
    if v.status == status then
      match oldestWith status vs with
      | none => some v
      | some b => if v.created_at ≤ b.created_at then some v else some b
    else oldestWith status vs

/-- Model of `Database.get_next_video` (db.py:83-119): inside one exclusive
transaction, select the oldest eligible row, set its status to the
in-progress status, commit, and return the refreshed row; `none` when no
row is eligible. -/
def get_next_video (db : DBState) (step : Option String) (now : Nat) :
    Option Video × DBState :=
  let sts := claimStatuses step
  match oldestWith sts.1 db.videos with
  | none => (none, db)
  | some row =>
    let vids := db.videos.map (fun v =>
      if v.id == row.id then { v with status := sts.2, updated_at := now } else v)
    (vids.find? (fun v => v.id == row.id), { db with videos := vids })

/-- Model of `Database.update_video_status` (db.py:121-129): unconditional
`UPDATE videos SET status=?, updated_at=?, error=? WHERE id=?`
(passing `error=None` clears the column). -/
def update_video_status (db : DBState) (id status : String)
    (error : Option String) (now : Nat) : DBState :=
  { db with videos := db.videos.map (fun v =>
      if v.id == id then { v with status := status, updated_at := now, error := error }
      else v) }

/-- Model of `Database.increment_retries` (db.py:165-170):
`UPDATE videos SET retries = retries + 1 WHERE id=?`, then re-select the
row and return its retry count (0 when the id is absent). -/
def increment_retries (db : DBState) (id : String) : Nat × DBState :=
  let db1 : DBState := { db with videos := db.videos.map (fun v =>
      if v.id == id then { v with retries := v.retries + 1 } else v) }
  match db1.videos.find? (fun v => v.id == id) with
  | some v => (v.retries, db1)
  | none => (0, db1)

/-- Model of `Database.save_subtitle` (db.py:131-137): `INSERT OR REPLACE` keyed by
`(video_id, start_sec)` — any conflicting row is deleted, the new row
inserted. -/
def save_subtitle (db : DBState) (video_id : String) (start_sec end_sec : Int)
    (text : String) : DBState :=
  { db with subtitles :=
      db.subtitles.filter (fun s => !(s.video_id == video_id && s.start_sec == start_sec))
        ++ [{ video_id := video_id, start_sec := start_sec, end_sec := end_sec, text := text }] }

/-- Model of `Database.save_analysis` (db.py:139-153): `INSERT OR REPLACE` keyed by
`video_id`. -/
def save_analysis (db : DBState) (video_id summary : String)
    (topics key_terms chapters : List String) : DBState :=
  { db with analysis :=
      db.analysis.filter (fun a => !(a.video_id == video_id))
        ++ [{ video_id := video_id, summary := summary, topics := topics,
              key_terms := key_terms, chapters := chapters }] }

/-- Value of `MAX_RETRIES = int(os.getenv("MAX_RETRIES", "1"))` (pipeline.py:21):
the default retry cap. -/
def MAX_RETRIES_default : Nat := 1

/-- The `except` handler of the worker loop (pipeline.py:488-497):
increment the retry counter, then requeue to `todo` when the new count is
strictly below the cap, else mark `failed`; the error message is recorded
either way. -/
def handleWorkerError (maxRetries : Nat) (db : DBState) (vid errMsg : String)
    (now : Nat) : DBState :=
  let r := increment_retries db vid
  if r.1 < maxRetries then
    update_video_status r.2 vid "todo" (some errMsg) now
  else
    update_video_status r.2 vid "failed" (some errMsg) now

/-! ### Path helpers (POSIX strings, `pathlib` operations used by the code) -/

/-- Char-list test: the first list starts the second. -/
def charsLead : List Char → List Char → Bool
  | [], _ => true
  | _ :: _, [] => false
  | a :: as, b :: bs => a == b && charsLead as bs

/-- Char-list test: the first list occurs contiguously inside the second
(Python's `needle in haystack` on strings). -/
def charsHaveSub (needle : List Char) : List Char → Bool
  | [] => charsLead needle []
  | c :: cs => charsLead needle (c :: cs) || charsHaveSub needle cs

/-- Python `needle in str(path)`. -/
def strHasSub (needle hay : String) : Bool := charsHaveSub needle.data hay.data

/-- The string starts with the given lead. -/
def strLeads (lead s : String) : Bool := charsLead lead.data s.data

/-- The string ends with the given tail. -/
def strEnds (tail s : String) : Bool := charsLead tail.data.reverse s.data.reverse

/-- Final path component (`PurePath.name`): everything after the last `/`. -/
def basenameChars (l : List Char) : List Char :=
  ((l.reverse.takeWhile (fun c => c ≠ '/')).reverse)

/-- The leading part of the path up to and including the last `/`
(empty when there is no `/`). -/
def dirnameChars (l : List Char) : List Char :=
  (l.reverse.dropWhile (fun c => c ≠ '/')).reverse

/-- Strip the final `.suffix` from a file name, Python `PurePath.stem` on the
name: `"a.b.c" ↦ "a.b"`, no dot (or only a leading dot) leaves the name
unchanged. -/
def dropAfterLastDot (b : List Char) : List Char :=
  let rev := b.reverse
  if rev.contains '.' then
    match rev.dropWhile (fun c => c ≠ '.') with
    | '.' :: rest => if rest.isEmpty then b else rest.reverse
    | _ => b
  else b

/-- Python `PurePath.stem` of a path string. -/
def pathStem (path : String) : String :=
  String.mk (dropAfterLastDot (basenameChars path.data))

/-- Python `path.with_name(newName)`: replace the final component. -/
def withName (path newName : String) : String :=
  String.mk (dirnameChars path.data ++ newName.data)

/-- The expression `Path(file_path).with_name(...)` building the stem plus `_transcription.md` —
the transcript-artifact path derived from a media path, computed identically
in pipeline.py:210-212 and transcriber.py:52. -/
def transcriptionPathOf (filePath : String) : String :=
  withName filePath (pathStem filePath ++ "_transcription.md")

/-! ### Transcriber model (transcriber.py) and the transcribe stage -/

/-- Which Transcriber mode a call resolves to: the artifact-parsing mode
(`_parse_transcription_file`) or one of the fresh-computation backends. -/
inductive TranscribeCall where
  | parseArtifact (path : String)
  | freshOffmute
  | freshDeepgram
deriving DecidableEq

/-- Model of `Transcriber.transcribe` (transcriber.py:41-75): check for an existing
`_transcription.md` artifact next to the media file FIRST; only when it is
absent dispatch to the configured fresh backend. `fs` is the set of existing
files; the external effects of the fresh backends are outside the store, so
the model records which mode is invoked. -/
def transcriberTranscribe (fs : List String) (backend filePath : String) :
    TranscribeCall :=
  let tp := transcriptionPathOf filePath
  if fs.contains tp then .parseArtifact tp
  else if backend == "offmute" then .freshOffmute
  else .freshDeepgram

/-- Model of `transcribe_video` (pipeline.py:205-256): if the artifact exists the row
is marked `transcribed` immediately and the Transcriber is still called (its
own artifact check makes it parse, not recompute); otherwise the row is
marked `transcribing` and the Transcriber is called. Segment/analysis
persistence consumes the collaborator's output and is modelled by
`persistSegments` below. Returns the updated store and the Transcriber mode
invoked. -/
def transcribe_video_model (fs : List String) (db : DBState)
    (vid filePath backend : String) (now : Nat) : DBState × TranscribeCall :=
  let tp := transcriptionPathOf filePath
  if fs.contains tp then
    (update_video_status db vid "transcribed" none now,
     transcriberTranscribe fs backend filePath)
  else
    (update_video_status db vid "transcribing" none now,
     transcriberTranscribe fs backend filePath)

/-! ### Transcript-artifact resolution for composite ids (pipeline.py:394-436) -/

/-- Value of `DOWNLOAD_DIR = Path("./downloads")` (pipeline.py:18), as the artifact
root. The claims quantify over the root, so it is a parameter below. -/
def DOWNLOAD_DIR : String := "downloads"

/-- Model of `DOWNLOAD_DIR.glob("**/*_transcription.md")` over an abstract file
system: files under the root whose name ends in `_transcription.md`
(the suffix contains no `/`, so testing the whole path string is
equivalent); enumeration order is the file-system listing order. -/
def globTranscriptions (root : String) (fs : List String) : List String :=
  fs.filter (fun f => strLeads (root ++ "/") f && strEnds "_transcription.md" f)

/-- Composite-id transcript resolution, pipeline.py:395-436, for
`vid = scope ++ "/" ++ leaf`:
(a) `DOWNLOAD_DIR / channel_id / f"{video_id}_transcription.md"`;
(b) `DOWNLOAD_DIR / f"{vid}_transcription.md"` — under POSIX joining the
embedded `/` of the full id makes this the same path string as (a);
(c) `DOWNLOAD_DIR / f"{video_id}_transcription.md"`;
(d) the first glob hit with `video_id in str(transcription_file)`. -/
def resolveTranscription (root scope leaf : String) (fs : List String) :
    Option String :=
  let expected_path := root ++ "/" ++ scope ++ "/" ++ leaf ++ "_transcription.md"
  if fs.contains expected_path then some expected_path
  else
    let fallback_path := root ++ "/" ++ (scope ++ "/" ++ leaf) ++ "_transcription.md"
    if fs.contains fallback_path then some fallback_path
    else
      let video_only_path := root ++ "/" ++ leaf ++ "_transcription.md"
      if fs.contains video_only_path then some video_only_path
      else (globTranscriptions root fs).find? (fun f => strHasSub leaf f)

/-- The final path component of a path string, for comparison with the
claim's "artifact file whose name contains leaf". -/
def basenameStr (f : String) : String := String.mk (basenameChars f.data)

/-- The resolution procedure as the spec sentence words it, differing from
the source only in step (d): the search matches files whose NAME contains
the leaf, where the source matches on the whole path string. Used to compare
the claim's wording against the code. -/
def resolveTranscriptionSpec (root scope leaf : String) (fs : List String) :
    Option String :=
  let pa := root ++ "/" ++ scope ++ "/" ++ leaf ++ "_transcription.md"
  if fs.contains pa then some pa
  else
    let pb := root ++ "/" ++ (scope ++ "/" ++ leaf) ++ "_transcription.md"
    if fs.contains pb then some pb
    else
      let pc := root ++ "/" ++ leaf ++ "_transcription.md"
      if fs.contains pc then some pc
      else (globTranscriptions root fs).find? (fun f => strHasSub leaf (basenameStr f))

/-! ### Ingest stage (pipeline.py:259-321 and the worker loop tail) -/

/-- Outcome of the external Graphiti collaborator inside
`ingest_transcription`: constructor order follows the code's check order. -/
inductive GraphitiOutcome where
  | initRaised (msg : String)
  | schemaFailed
  | ingestRaised (msg : String)
  | ok (success : Bool)
deriving DecidableEq

/-- Model of `ingest_transcription` (pipeline.py:259-321): every failure branch
writes status `failed` with the error message directly (no retry-counter
touch) and returns `False`; only `success = True` yields `done`. The
`ingesting` status is written after manager/schema initialization and before
the ingest call, as in the code. -/
def ingest_transcription_model (db : DBState) (vid path : String)
    (fileExists : Bool) (outcome : GraphitiOutcome) (now : Nat) : DBState × Bool :=
  if !fileExists then
    (update_video_status db vid "failed"
      (some ("Transcription file does not exist: " ++ path)) now, false)
  else
    match outcome with
    | .initRaised m =>
      (update_video_status db vid "failed"
        (some ("Failed to initialize GraphitiManager: " ++ m)) now, false)
    | .schemaFailed =>
      (update_video_status db vid "failed"
        (some "Failed to initialize Neo4j schema") now, false)
    | .ingestRaised m =>
      let db1 := update_video_status db vid "ingesting" none now
      (update_video_status db1 vid "failed"
        (some ("Exception during graphiti.ingest_transcription: " ++ m)) now, false)
    | .ok true =>
      let db1 := update_video_status db vid "ingesting" none now
      (update_video_status db1 vid "done" none now, true)
    | .ok false =>
      let db1 := update_video_status db vid "ingesting" none now
      (update_video_status db1 vid "failed"
        (some "Failed to ingest transcription into Graphiti") now, false)

/-- The ingest section of the worker loop in FULL-PIPELINE mode
(`step is None`, pipeline.py:385-485): `artifact` is the resolved transcript
path (`none` when resolution found nothing). When resolution fails only a
log line is emitted (the `failed` write at pipeline.py:479 is guarded by
`step == "ingest"`); when ingest fails the loop logs a warning and, since
`step != "ingest"`, does NOT `continue`; either way control reaches
pipeline.py:483-484 which unconditionally writes status `done` with
`error=None`. -/
def fullPipelineIngestTail (db : DBState) (vid : String)
    (artifact : Option String) (outcome : GraphitiOutcome) (now : Nat) : DBState :=
  let db1 := match artifact with
    | some p => (ingest_transcription_model db vid p true outcome now).1
    | none => db
  update_video_status db1 vid "done" none now

/-- One iteration of the ingest section in SINGLE-STAGE mode
(`step == "ingest"`, pipeline.py:385-480): on a resolved artifact run
`ingest_transcription` (whose failure branches write `failed` themselves,
after which the loop `continue`s); on a missing artifact write `failed`
with the not-found message (pipeline.py:476-479) and `continue`. None of
these paths raise, so the loop's retry handler is never reached. -/
def ingestStepIteration (db : DBState) (vid : String)
    (artifact : Option String) (outcome : GraphitiOutcome) (now : Nat) : DBState :=
  match artifact with
  | some p => (ingest_transcription_model db vid p true outcome now).1
  | none =>
    update_video_status db vid "failed"
      (some ("Transcription file not found at any expected location for video " ++ vid)) now

/-- Model of the worker loop's media lookup in single-stage
transcribe/ingest mode for a remote item (pipeline.py:360-374): when no
downloaded `{vid}.mp4` is found under `DOWNLOAD_DIR`, the `StopIteration`
branch writes `failed` with the must-download-first message directly and
the loop `continue`s — the retry handler is never reached. -/
def mediaLookupFailure (db : DBState) (vid : String) (now : Nat) : DBState :=
  update_video_status db vid "failed"
    (some ("Video file not found for " ++ vid ++ ". Must download first.")) now

/-- Model of the transcribe-stage guard (pipeline.py:377-384): when the
resolved media path does not exist (`file_path and file_path.exists()`
false), the item is written `failed` with the not-found-at message directly
and the loop `continue`s — again bypassing the retry handler. -/
def transcribeStageMissingMedia (db : DBState) (vid filePath : String)
    (now : Nat) : DBState :=
  update_video_status db vid "failed"
    (some ("Video file not found at " ++ filePath)) now

/-! ### Segment persistence (pipeline.py:241-243) -/

/-- Python `int()` applied to a (rational-modelled) float: truncation toward
zero, `Int.div` being Lean's toward-zero division. -/
def pyInt (q : ℚ) : Int := Int.tdiv q.num q.den

/-- The persistence loop `for start, end, text in segments:
db.save_subtitle(vid, int(start), int(end), text)` (pipeline.py:241-243). -/
def persistSegments (db : DBState) (vid : String)
    (segs : List (ℚ × ℚ × String)) : DBState :=
  segs.foldl (fun d seg => save_subtitle d vid (pyInt seg.1) (pyInt seg.2.1) seg.2.2) db

/-- The unique `subtitles` row for a key, after the key invariant holds. -/
def lookupSub (db : DBState) (vid : String) (t : Int) : Option Subtitle :=
  db.subtitles.find? (fun s => s.video_id == vid && s.start_sec == t)

/-- The last segment in list order whose truncated start is `t` — the one
whose data survives replace-on-conflict. -/
def lastSegWith (t : Int) (segs : List (ℚ × ℚ × String)) :
    Option (ℚ × ℚ × String) :=
  segs.foldl (fun acc s => if pyInt s.1 = t then some s else acc) none

/-! ### Helper lemmas -/

lemma upd_id (f : Video → Video) (hf : ∀ w, (f w).id = w.id) (vid : String)
    (w : Video) : ((fun w => if w.id == vid then f w else w) w).id = w.id := by
  dsimp only
  split
  · exact hf w
  · rfl

lemma pairwise_upd (f : Video → Video) (hf : ∀ w, (f w).id = w.id) (vid : String)
    (l : List Video) (h : l.Pairwise (fun a b => a.id ≠ b.id)) :
    (l.map (fun w => if w.id == vid then f w else w)).Pairwise
      (fun a b => a.id ≠ b.id) := by
  rw [List.pairwise_map]
  refine h.imp ?_
  intro a b hab
  rw [upd_id f hf vid a, upd_id f hf vid b]
  exact hab

lemma find_upd (f : Video → Video) (hf : ∀ w, (f w).id = w.id) (vid : String)
    (l : List Video) (hp : l.Pairwise (fun a b => a.id ≠ b.id))
    (v : Video) (hv : v ∈ l) (hid : v.id = vid) :
    (l.map (fun w => if w.id == vid then f w else w)).find? (fun w => w.id == vid)
      = some (f v) := by
  induction l with
  | nil => cases hv
  | cons a l ih =>
    rw [List.pairwise_cons] at hp
    rcases List.mem_cons.mp hv with rfl | hv'
    · have ha : (v.id == vid) = true := beq_iff_eq.mpr hid
      rw [List.map_cons, if_pos ha]
      exact List.find?_cons_of_pos _ (beq_iff_eq.mpr ((hf v).trans hid))
    · have hne : a.id ≠ vid := fun hEq => hp.1 v hv' (hEq.trans hid.symm)
      have hne' : (a.id == vid) = false := beq_eq_false_iff_ne.mpr hne
      rw [List.map_cons, hne']
      simp only [Bool.false_eq_true, if_false]
      rw [List.find?_cons_of_neg _ (by simp [hne'])]
      exact ih hp.2 hv'

lemma oldestWith_none (status : String) (l : List Video)
    (h : oldestWith status l = none) : ∀ w ∈ l, w.status ≠ status := by
  induction l with
  | nil => intro w hw; cases hw
  | cons v vs ih =>
    intro w hw
    rw [oldestWith] at h
    by_cases hvs : (v.status == status) = true
    · rw [if_pos hvs] at h
      exfalso
      cases hrec : oldestWith status vs with
      | none =>
        simp only [hrec] at h
        exact Option.noConfusion h
      | some b =>
        simp only [hrec] at h
        rcases le_or_lt v.created_at b.created_at with hle | hlt
        · rw [if_pos hle] at h; exact Option.noConfusion h
        · rw [if_neg (not_le_of_lt hlt)] at h; exact Option.noConfusion h
    · rw [if_neg hvs] at h
      rcases List.mem_cons.mp hw with rfl | hw'
      · exact fun hs => hvs (beq_iff_eq.mpr hs)
      · exact ih h w hw'

lemma oldestWith_mem (status : String) (l : List Video) (r : Video)
    (h : oldestWith status l = some r) : r ∈ l := by
  induction l with
  | nil => cases h
  | cons v vs ih =>
    rw [oldestWith] at h
    by_cases hvs : (v.status == status) = true
    · rw [if_pos hvs] at h
      cases hrec : oldestWith status vs with
      | none =>
        simp only [hrec] at h
        cases h
        exact List.mem_cons_self _ _
      | some b =>
        simp only [hrec] at h
        rcases le_or_lt v.created_at b.created_at with hle | hlt
        · rw [if_pos hle] at h
          cases h
          exact List.mem_cons_self _ _
        · rw [if_neg (not_le_of_lt hlt)] at h
          cases h
          exact List.mem_cons_of_mem _ (ih hrec)
    · rw [if_neg hvs] at h
      exact List.mem_cons_of_mem _ (ih h)

lemma oldestWith_status (status : String) (l : List Video) (r : Video)
    (h : oldestWith status l = some r) : r.status = status := by
  induction l with
  | nil => cases h
  | cons v vs ih =>
    rw [oldestWith] at h
    by_cases hvs : (v.status == status) = true
    · rw [if_pos hvs] at h
      cases hrec : oldestWith status vs with
      | none =>
        simp only [hrec] at h
        cases h
        exact beq_iff_eq.mp hvs
      | some b =>
        simp only [hrec] at h
        rcases le_or_lt v.created_at b.created_at with hle | hlt
        · rw [if_pos hle] at h
          cases h
          exact beq_iff_eq.mp hvs
        · rw [if_neg (not_le_of_lt hlt)] at h
          cases h
          exact ih hrec
    · rw [if_neg hvs] at h
      exact ih h

lemma oldestWith_min (status : String) (l : List Video) :
    ∀ r : Video, oldestWith status l = some r →
      ∀ w ∈ l, w.status = status → r.created_at ≤ w.created_at := by
  induction l with
  | nil => intro r h; cases h
  | cons v vs ih =>
    intro r h w hw hws
    rw [oldestWith] at h
    by_cases hvs : (v.status == status) = true
    · rw [if_pos hvs] at h
      cases hrec : oldestWith status vs with
      | none =>
        simp only [hrec] at h
        cases h
        rcases List.mem_cons.mp hw with rfl | hw'
        · exact le_refl _
        · exact absurd hws (oldestWith_none status vs hrec w hw')
      | some b =>
        simp only [hrec] at h
        rcases le_or_lt v.created_at b.created_at with hle | hlt
        · rw [if_pos hle] at h
          cases h
          rcases List.mem_cons.mp hw with rfl | hw'
          · exact le_refl _
          · exact le_trans hle (ih b hrec w hw' hws)
        · rw [if_neg (not_le_of_lt hlt)] at h
          cases h
          rcases List.mem_cons.mp hw with rfl | hw'
          · exact le_of_lt hlt
          · exact ih r hrec w hw' hws
    · rw [if_neg hvs] at h
      rcases List.mem_cons.mp hw with rfl | hw'
      · exact absurd (beq_iff_eq.mpr hws) hvs
      · exact ih r h w hw' hws

lemma oldestWith_isSome (status : String) (l : List Video) (w : Video)
    (hw : w ∈ l) (hs : w.status = status) : ∃ r, oldestWith status l = some r := by
  rcases h : oldestWith status l with _ | r
  · exact absurd hs (oldestWith_none status l h w hw)
  · exact ⟨r, rfl⟩

lemma claimStatuses_fst_ne_snd (step : Option String) :
    (claimStatuses step).1 ≠ (claimStatuses step).2 := by
  unfold claimStatuses
  split <;> decide

lemma claimStatuses_fst_ne_failed (step : Option String) :
    (claimStatuses step).1 ≠ "failed" := by
  unfold claimStatuses
  split <;> decide

lemma get_next_video_of_none (db : DBState) (step : Option String) (now : Nat)
    (h : oldestWith (claimStatuses step).1 db.videos = none) :
    get_next_video db step now = (none, db) := by
  unfold get_next_video
  simp only [h]

lemma get_next_video_of_oldest (db : DBState) (step : Option String) (now : Nat)
    (huniq : idsUnique db) (r : Video)
    (h : oldestWith (claimStatuses step).1 db.videos = some r) :
    get_next_video db step now
      = (some { r with status := (claimStatuses step).2, updated_at := now },
         { db with videos := db.videos.map (fun v =>
             if v.id == r.id then
               { v with status := (claimStatuses step).2, updated_at := now }
             else v) }) := by
  unfold get_next_video
  simp only [h]
  rw [find_upd (fun v => { v with status := (claimStatuses step).2, updated_at := now })
        (fun w => rfl) r.id db.videos huniq r (oldestWith_mem _ _ _ h) rfl]

lemma get_next_video_inv (db : DBState) (step : Option String) (now : Nat)
    (w : Video) (db' : DBState)
    (h : get_next_video db step now = (some w, db')) :
    ∃ r, oldestWith (claimStatuses step).1 db.videos = some r ∧ w.id = r.id ∧
      db'.videos = db.videos.map (fun v =>
        if v.id == r.id then
          { v with status := (claimStatuses step).2, updated_at := now }
        else v) := by
  unfold get_next_video at h
  cases hrec : oldestWith (claimStatuses step).1 db.videos with
  | none =>
    simp only [hrec] at h
    exact absurd (congrArg Prod.fst h) (by simp)
  | some r =>
    simp only [hrec] at h
    refine ⟨r, rfl, ?_, ?_⟩
    · have h1 : (db.videos.map (fun v =>
          if v.id == r.id then
            { v with status := (claimStatuses step).2, updated_at := now }
          else v)).find? (fun v => v.id == r.id) = some w := congrArg Prod.fst h
      have h2 := List.find?_some h1
      exact beq_iff_eq.mp h2
    · exact (congrArg (fun p => (Prod.snd p).videos) h).symm

/-! ### Demo rows shared by concrete witnesses -/

def rowA : Video := ⟨"a", "ta", "youtube", "todo", 0, none, none, 2, 2, none⟩

def rowB : Video := ⟨"b", "tb", "youtube", "todo", 0, none, none, 1, 1, none⟩

def twoTodoDB : DBState := ⟨[rowA, rowB], [], []⟩

def rowV : Video := ⟨"v", "t", "youtube", "transcribed", 0, none, none, 1, 1, none⟩

def oneItemDB : DBState := ⟨[rowV], [], []⟩

def rowDone : Video :=
  ⟨"x", "old", "youtube", "done", 2, some 10, some "f.mp4", 1, 4, some "boom"⟩

def richDB : DBState :=
  ⟨[rowDone], [⟨"x", 0, 5, "hello"⟩], [⟨"x", "sum", ["t"], ["k"], ["c"]⟩]⟩

/-! ### Claims -/

/-- C1: `claim_next` (= `Database.get_next_video`) follows the stage table
(download/unspecified: `todo` → `downloading`, transcribe: `downloaded` →
`transcribing`, ingest: `transcribed` → `ingesting`); it returns `none` when
no row carries the required predecessor status; a successful claim returns
the oldest-created eligible row with its status already set to the
in-progress status; and because that update happens inside the claim, a
second claim for the same stage can never return the same item id. -/
theorem C1_claim_protocol (db : DBState) (step : Option String) (now now2 : Nat)
    (huniq : idsUnique db) :
    claimStatuses none = ("todo", "downloading")
    ∧ claimStatuses (some "download") = ("todo", "downloading")
    ∧ claimStatuses (some "transcribe") = ("downloaded", "transcribing")
    ∧ claimStatuses (some "ingest") = ("transcribed", "ingesting")
    ∧ ((∀ w ∈ db.videos, w.status ≠ (claimStatuses step).1) →
        (get_next_video db step now).1 = none)
    ∧ (∀ v db', get_next_video db step now = (some v, db') →
        v.status = (claimStatuses step).2
        ∧ (∃ r ∈ db.videos, r.id = v.id ∧ r.status = (claimStatuses step).1
            ∧ ∀ w ∈ db.videos, w.status = (claimStatuses step).1 →
                r.created_at ≤ w.created_at)
        ∧ ∀ w db'', get_next_video db' step now2 = (some w, db'') →
            w.id ≠ v.id) := by
  refine ⟨rfl, rfl, rfl, rfl, ?_, ?_⟩
  · intro hnone
    cases hrec : oldestWith (claimStatuses step).1 db.videos with
    | none => rw [get_next_video_of_none db step now hrec]
    | some r =>
      exact absurd (oldestWith_status _ _ _ hrec)
        (hnone r (oldestWith_mem _ _ _ hrec))
  · intro v db' h
    cases hrec : oldestWith (claimStatuses step).1 db.videos with
    | none =>
      rw [get_next_video_of_none db step now hrec] at h
      exact absurd (congrArg Prod.fst h) (by simp)
    | some r =>
      have hform := get_next_video_of_oldest db step now huniq r hrec
      rw [h] at hform
      have hv : v = { r with status := (claimStatuses step).2, updated_at := now } :=
        Option.some.inj (congrArg Prod.fst hform)
      have hdb' : db'.videos = db.videos.map (fun x =>
          if x.id == r.id then
            { x with status := (claimStatuses step).2, updated_at := now }
          else x) :=
        congrArg (fun p => (Prod.snd p).videos) hform
      refine ⟨by rw [hv], ⟨r, oldestWith_mem _ _ _ hrec, by rw [hv],
        oldestWith_status _ _ _ hrec, oldestWith_min _ _ r hrec⟩, ?_⟩
      intro w db'' h2 heq
      obtain ⟨r', hrec', hwid, _⟩ := get_next_video_inv db' step now2 w db'' h2
      have hmem' := oldestWith_mem _ _ _ hrec'
      have hstat' := oldestWith_status _ _ _ hrec'
      rw [hdb'] at hmem'
      obtain ⟨x, hx, hxe⟩ := List.mem_map.mp hmem'
      have hrid : r'.id = r.id := by rw [← hwid, heq, hv]
      by_cases hxid : (x.id == r.id) = true
      · rw [if_pos hxid] at hxe
        have hsnd : r'.status = (claimStatuses step).2 := by rw [← hxe]
        exact claimStatuses_fst_ne_snd step (hstat'.symm.trans hsnd)
      · rw [if_neg hxid] at hxe
        exact hxid (beq_iff_eq.mpr (by rw [hxe, hrid]))

/-- C1 witness: on a two-item queue the theorem's hypotheses hold and its
conclusion is realized concretely. -/
theorem C1_claim_protocol_witness :
    idsUnique twoTodoDB ∧
    (claimStatuses none = ("todo", "downloading")
     ∧ claimStatuses (some "download") = ("todo", "downloading")
     ∧ claimStatuses (some "transcribe") = ("downloaded", "transcribing")
     ∧ claimStatuses (some "ingest") = ("transcribed", "ingesting")
     ∧ ((∀ w ∈ twoTodoDB.videos, w.status ≠ (claimStatuses none).1) →
         (get_next_video twoTodoDB none 5).1 = none)
     ∧ (∀ v db', get_next_video twoTodoDB none 5 = (some v, db') →
         v.status = (claimStatuses none).2
         ∧ (∃ r ∈ twoTodoDB.videos, r.id = v.id ∧ r.status = (claimStatuses none).1
             ∧ ∀ w ∈ twoTodoDB.videos, w.status = (claimStatuses none).1 →
                 r.created_at ≤ w.created_at)
         ∧ ∀ w db'', get_next_video db' none 6 = (some w, db'') →
             w.id ≠ v.id)) :=
  ⟨by decide, C1_claim_protocol twoTodoDB none 5 6 (by decide)⟩

/-- C7: when two items A and B are both eligible for a stage and A was
created strictly earlier, a claim never returns B while A is pending; it
returns an item at least as old as A, so A's id is handed out before B's. -/
theorem C7_fifo_within_bucket (db : DBState) (step : Option String) (now : Nat)
    (huniq : idsUnique db) (A B : Video) (hA : A ∈ db.videos) (hB : B ∈ db.videos)
    (hAs : A.status = (claimStatuses step).1) (_hBs : B.status = (claimStatuses step).1)
    (hlt : A.created_at < B.created_at) :
    ∃ v db', get_next_video db step now = (some v, db')
      ∧ v.id ≠ B.id ∧ v.created_at ≤ A.created_at := by
  obtain ⟨r, hrec⟩ := oldestWith_isSome (claimStatuses step).1 db.videos A hA hAs
  have hform := get_next_video_of_oldest db step now huniq r hrec
  have hrmin := oldestWith_min (claimStatuses step).1 db.videos r hrec
  have hrA : r.created_at ≤ A.created_at := hrmin A hA hAs
  refine ⟨_, _, hform, ?_, hrA⟩
  have hrne : r ≠ B := by
    intro hEq
    rw [hEq] at hrA
    exact absurd hlt (not_lt_of_le hrA)
  exact huniq.forall (fun x y hxy => hxy.symm)
    (oldestWith_mem _ _ _ hrec) hB hrne

/-- C7 witness: with item "b" created at 1 and item "a" created at 2, both
`todo`, the full-pipeline claim returns "b", not "a". -/
theorem C7_fifo_within_bucket_witness :
    (idsUnique twoTodoDB ∧ rowB ∈ twoTodoDB.videos ∧ rowA ∈ twoTodoDB.videos
      ∧ rowB.status = (claimStatuses none).1 ∧ rowA.status = (claimStatuses none).1
      ∧ rowB.created_at < rowA.created_at)
    ∧ ∃ v db', get_next_video twoTodoDB none 5 = (some v, db')
        ∧ v.id ≠ rowA.id ∧ v.created_at ≤ rowB.created_at :=
  ⟨⟨by decide, by decide, by decide, by decide, by decide, by decide⟩,
   C7_fifo_within_bucket twoTodoDB none 5 (by decide) rowB rowA (by decide)
     (by decide) (by decide) (by decide) (by decide)⟩

lemma increment_retries_eq (db : DBState) (vid : String) (huniq : idsUnique db)
    (v : Video) (hv : v ∈ db.videos) (hid : v.id = vid) :
    increment_retries db vid
      = (v.retries + 1,
         { db with videos := db.videos.map (fun w =>
             if w.id == vid then { w with retries := w.retries + 1 } else w) }) := by
  simp only [increment_retries]
  rw [find_upd (fun w => { w with retries := w.retries + 1 }) (fun w => rfl) vid
        db.videos huniq v hv hid]

lemma update_status_find (db : DBState) (vid st : String) (err : Option String)
    (now : Nat) (huniq : idsUnique db) (v : Video) (hv : v ∈ db.videos)
    (hid : v.id = vid) :
    (update_video_status db vid st err now).videos.find? (fun w => w.id == vid)
      = some { v with status := st, updated_at := now, error := err } :=
  find_upd (fun w => { w with status := st, updated_at := now, error := err })
    (fun w => rfl) vid db.videos huniq v hv hid

lemma update_status_find2 (db : DBState) (vid st1 st2 : String)
    (err1 err2 : Option String) (now : Nat) (huniq : idsUnique db)
    (v : Video) (hv : v ∈ db.videos) (hid : v.id = vid) :
    (update_video_status (update_video_status db vid st1 err1 now)
        vid st2 err2 now).videos.find? (fun w => w.id == vid)
      = some { v with status := st2, updated_at := now, error := err2 } := by
  have hpair1 : idsUnique (update_video_status db vid st1 err1 now) :=
    pairwise_upd (fun w => { w with status := st1, updated_at := now, error := err1 })
      (fun w => rfl) vid db.videos huniq
  have hmem1 : ({ v with status := st1, updated_at := now, error := err1 } : Video)
      ∈ (update_video_status db vid st1 err1 now).videos :=
    List.mem_map.mpr ⟨v, hv, by rw [if_pos (beq_iff_eq.mpr hid)]⟩
  have h := update_status_find (update_video_status db vid st1 err1 now) vid st2
    err2 now hpair1 ({ v with status := st1, updated_at := now, error := err1 })
    hmem1 hid
  exact h

lemma handleWorkerError_spec (maxRetries : Nat) (db : DBState) (vid msg : String)
    (now : Nat) (huniq : idsUnique db) (v : Video) (hv : v ∈ db.videos)
    (hid : v.id = vid) :
    ∃ v', (handleWorkerError maxRetries db vid msg now).videos.find?
        (fun w => w.id == vid) = some v'
      ∧ v'.retries = v.retries + 1 ∧ v'.error = some msg
      ∧ (v.retries + 1 < maxRetries → v'.status = "todo")
      ∧ (maxRetries ≤ v.retries + 1 → v'.status = "failed") := by
  have hpair1 := pairwise_upd (fun w => { w with retries := w.retries + 1 })
    (fun w => rfl) vid db.videos huniq
  have hmem1 : ({ v with retries := v.retries + 1 } : Video) ∈
      db.videos.map (fun w =>
        if w.id == vid then { w with retries := w.retries + 1 } else w) :=
    List.mem_map.mpr ⟨v, hv, by rw [if_pos (beq_iff_eq.mpr hid)]⟩
  simp only [handleWorkerError, increment_retries_eq db vid huniq v hv hid]
  by_cases hc : v.retries + 1 < maxRetries
  · rw [if_pos hc]
    exact ⟨_, find_upd (fun w => { w with status := "todo", updated_at := now, error := some msg }) (fun w => rfl) vid _ hpair1 _ hmem1 hid,
      rfl, rfl, fun _ => rfl, fun hcon => absurd hc (not_lt_of_le hcon)⟩
  · rw [if_neg hc]
    exact ⟨_, find_upd (fun w => { w with status := "failed", updated_at := now, error := some msg }) (fun w => rfl) vid _ hpair1 _ hmem1 hid,
      rfl, rfl, fun hcon => absurd hcon hc, fun _ => rfl⟩

lemma claimed_was_not_failed (d : DBState) (step : Option String) (n : Nat)
    (w : Video) (d' : DBState) (h : get_next_video d step n = (some w, d')) :
    ∃ r ∈ d.videos, r.id = w.id ∧ r.status ≠ "failed" := by
  obtain ⟨r, hrec, hwid, _⟩ := get_next_video_inv d step n w d' h
  exact ⟨r, oldestWith_mem _ _ _ hrec, hwid.symm,
    (oldestWith_status _ _ _ hrec).symm ▸ claimStatuses_fst_ne_failed step⟩

/-- C3: when a stage raises and the exception reaches the worker loop's
handler, the retry counter is incremented; a new count strictly below
`MAX_RETRIES` sends the item back to `todo` with the error recorded, a count
at or above the cap marks it `failed` with the error persisted; and a
`failed` item is never claimed again by any stage (no automatic
transition). -/
theorem C3_retry_policy (maxRetries : Nat) (db : DBState) (vid msg : String)
    (now : Nat) (huniq : idsUnique db) (v : Video) (hv : v ∈ db.videos)
    (hid : v.id = vid) :
    (∃ v', (handleWorkerError maxRetries db vid msg now).videos.find?
        (fun w => w.id == vid) = some v'
      ∧ v'.retries = v.retries + 1 ∧ v'.error = some msg
      ∧ (v.retries + 1 < maxRetries → v'.status = "todo")
      ∧ (maxRetries ≤ v.retries + 1 → v'.status = "failed"))
    ∧ MAX_RETRIES_default = 1
    ∧ ∀ (d : DBState) (step : Option String) (n : Nat) (w : Video) (d' : DBState),
        get_next_video d step n = (some w, d') →
        ∃ r ∈ d.videos, r.id = w.id ∧ r.status ≠ "failed" :=
  ⟨handleWorkerError_spec maxRetries db vid msg now huniq v hv hid, rfl,
   fun d step n w d' h => claimed_was_not_failed d step n w d' h⟩

/-- C3 witness: a single `transcribed` item with 0 retries, cap 1: the
handler sets it to `failed` with the error persisted. -/
theorem C3_retry_policy_witness :
    (idsUnique oneItemDB ∧ rowV ∈ oneItemDB.videos ∧ rowV.id = "v") ∧
    ((∃ v', (handleWorkerError 1 oneItemDB "v" "boom" 5).videos.find?
        (fun w => w.id == "v") = some v'
      ∧ v'.retries = rowV.retries + 1 ∧ v'.error = some "boom"
      ∧ (rowV.retries + 1 < 1 → v'.status = "todo")
      ∧ (1 ≤ rowV.retries + 1 → v'.status = "failed"))
    ∧ MAX_RETRIES_default = 1
    ∧ ∀ (d : DBState) (step : Option String) (n : Nat) (w : Video) (d' : DBState),
        get_next_video d step n = (some w, d') →
        ∃ r ∈ d.videos, r.id = w.id ∧ r.status ≠ "failed") :=
  ⟨⟨by decide, by decide, by decide⟩,
   C3_retry_policy 1 oneItemDB "v" "boom" 5 (by decide) rowV (by decide) (by decide)⟩

/-- C4 counterexample: in single-stage ingest mode a missing transcript
artifact writes `failed` directly — the retry counter stays 0 even though
0 + 1 would not exceed the default cap — whereas routing the same failure
through the loop's retry policy would have produced retries = 1. -/
theorem C4_missing_artifact_bypasses_retries :
    ((ingestStepIteration oneItemDB "v" none (.ok false) 5).videos
      = [⟨"v", "t", "youtube", "failed", 0, none, none, 1, 5,
          some "Transcription file not found at any expected location for video v"⟩])
    ∧ ((handleWorkerError MAX_RETRIES_default oneItemDB "v"
          "Transcription file not found at any expected location for video v" 5).videos
      = [⟨"v", "t", "youtube", "failed", 1, none, none, 1, 5,
          some "Transcription file not found at any expected location for video v"⟩]) :=
  ⟨by decide, by decide⟩

/-- C4 amended: an exception that reaches the worker loop's handler is
routed through the retry policy (counter incremented, `MAX_RETRIES` cap
decides todo-versus-failed); but every direct failure path — the missing
downloaded media in single-stage transcribe/ingest mode
(pipeline.py:369-374), a media path that does not exist at the transcribe
stage (pipeline.py:381-383), a missing transcript artifact in single-stage
ingest mode (pipeline.py:476-480), and every failing run of
`ingest_transcription` (pipeline.py:259-321, including the
missing-file, initialization, schema, exception and unsuccessful-ingest
branches) — sets the item's status directly to `failed` with the error
recorded and the retry counter untouched, bypassing the retry policy. -/
theorem C4_retry_routing_amended (maxRetries : Nat) (db : DBState)
    (vid msg : String) (now : Nat) (huniq : idsUnique db)
    (v : Video) (hv : v ∈ db.videos) (hid : v.id = vid) :
    (∃ v', (handleWorkerError maxRetries db vid msg now).videos.find?
        (fun w => w.id == vid) = some v'
      ∧ v'.retries = v.retries + 1
      ∧ (v.retries + 1 < maxRetries → v'.status = "todo")
      ∧ (maxRetries ≤ v.retries + 1 → v'.status = "failed"))
    ∧ (∃ v', (mediaLookupFailure db vid now).videos.find?
        (fun w => w.id == vid) = some v'
      ∧ v'.retries = v.retries ∧ v'.status = "failed"
      ∧ v'.error = some ("Video file not found for " ++ vid ++ ". Must download first."))
    ∧ (∀ filePath : String, ∃ v',
        (transcribeStageMissingMedia db vid filePath now).videos.find?
          (fun w => w.id == vid) = some v'
        ∧ v'.retries = v.retries ∧ v'.status = "failed"
        ∧ v'.error = some ("Video file not found at " ++ filePath))
    ∧ (∀ outcome : GraphitiOutcome, ∃ v',
        (ingestStepIteration db vid none outcome now).videos.find?
          (fun w => w.id == vid) = some v'
        ∧ v'.retries = v.retries ∧ v'.status = "failed"
        ∧ v'.error = some ("Transcription file not found at any expected location for video "
            ++ vid))
    ∧ (∀ (path : String) (fileExists : Bool) (outcome : GraphitiOutcome),
        (ingest_transcription_model db vid path fileExists outcome now).2 = false →
        ∃ v', (ingest_transcription_model db vid path fileExists
            outcome now).1.videos.find? (fun w => w.id == vid) = some v'
          ∧ v'.retries = v.retries ∧ v'.status = "failed"
          ∧ ∃ m, v'.error = some m) := by
  obtain ⟨v', h1, h2, h3, h4, h5⟩ :=
    handleWorkerError_spec maxRetries db vid msg now huniq v hv hid
  refine ⟨⟨v', h1, h2, h4, h5⟩, ?_, ?_, ?_, ?_⟩
  · exact ⟨{ v with status := "failed", updated_at := now, error := some ("Video file not found for " ++ vid ++ ". Must download first.") },
      update_status_find db vid "failed" _ now huniq v hv hid, rfl, rfl, rfl⟩
  · intro filePath
    exact ⟨{ v with status := "failed", updated_at := now, error := some ("Video file not found at " ++ filePath) },
      update_status_find db vid "failed" _ now huniq v hv hid, rfl, rfl, rfl⟩
  · intro outcome
    exact ⟨{ v with status := "failed", updated_at := now, error := some ("Transcription file not found at any expected location for video " ++ vid) },
      update_status_find db vid "failed" _ now huniq v hv hid, rfl, rfl, rfl⟩
  · intro path fileExists outcome hfalse
    cases fileExists with
    | false =>
      exact ⟨{ v with status := "failed", updated_at := now, error := some ("Transcription file does not exist: " ++ path) },
        update_status_find db vid "failed" _ now huniq v hv hid, rfl, rfl, _, rfl⟩
    | true =>
      cases outcome with
      | initRaised m =>
        exact ⟨{ v with status := "failed", updated_at := now, error := some ("Failed to initialize GraphitiManager: " ++ m) },
          update_status_find db vid "failed" _ now huniq v hv hid, rfl, rfl, _, rfl⟩
      | schemaFailed =>
        exact ⟨{ v with status := "failed", updated_at := now, error := some "Failed to initialize Neo4j schema" },
          update_status_find db vid "failed" _ now huniq v hv hid, rfl, rfl, _, rfl⟩
      | ingestRaised m =>
        exact ⟨{ v with status := "failed", updated_at := now, error := some ("Exception during graphiti.ingest_transcription: " ++ m) },
          update_status_find2 db vid "ingesting" "failed" none _ now huniq v hv hid,
          rfl, rfl, _, rfl⟩
      | ok b =>
        cases b with
        | true => exact Bool.noConfusion hfalse
        | false =>
          exact ⟨{ v with status := "failed", updated_at := now, error := some "Failed to ingest transcription into Graphiti" },
            update_status_find2 db vid "ingesting" "failed" none _ now huniq v hv hid,
            rfl, rfl, _, rfl⟩

/-- C4 amended witness: concrete instantiation on a one-item store. -/
theorem C4_retry_routing_amended_witness :
    (idsUnique oneItemDB ∧ rowV ∈ oneItemDB.videos ∧ rowV.id = "v") ∧
    ((∃ v', (handleWorkerError 1 oneItemDB "v" "boom" 5).videos.find?
        (fun w => w.id == "v") = some v'
      ∧ v'.retries = rowV.retries + 1
      ∧ (rowV.retries + 1 < 1 → v'.status = "todo")
      ∧ (1 ≤ rowV.retries + 1 → v'.status = "failed"))
    ∧ (∃ v', (mediaLookupFailure oneItemDB "v" 5).videos.find?
        (fun w => w.id == "v") = some v'
      ∧ v'.retries = rowV.retries ∧ v'.status = "failed"
      ∧ v'.error = some ("Video file not found for " ++ "v" ++ ". Must download first."))
    ∧ (∀ filePath : String, ∃ v',
        (transcribeStageMissingMedia oneItemDB "v" filePath 5).videos.find?
          (fun w => w.id == "v") = some v'
        ∧ v'.retries = rowV.retries ∧ v'.status = "failed"
        ∧ v'.error = some ("Video file not found at " ++ filePath))
    ∧ (∀ outcome : GraphitiOutcome, ∃ v',
        (ingestStepIteration oneItemDB "v" none outcome 5).videos.find?
          (fun w => w.id == "v") = some v'
        ∧ v'.retries = rowV.retries ∧ v'.status = "failed"
        ∧ v'.error = some ("Transcription file not found at any expected location for video "
            ++ "v"))
    ∧ (∀ (path : String) (fileExists : Bool) (outcome : GraphitiOutcome),
        (ingest_transcription_model oneItemDB "v" path fileExists outcome 5).2 = false →
        ∃ v', (ingest_transcription_model oneItemDB "v" path fileExists
            outcome 5).1.videos.find? (fun w => w.id == "v") = some v'
          ∧ v'.retries = rowV.retries ∧ v'.status = "failed"
          ∧ ∃ m, v'.error = some m)) :=
  ⟨⟨by decide, by decide, by decide⟩,
   C4_retry_routing_amended 1 oneItemDB "v" "boom" 5 (by decide) rowV
     (by decide) (by decide)⟩

/-- C6: upserting an id already present (any state, including `done`)
overwrites the metadata and resets status to `todo`, retries to 0 and error
to null, while the `subtitles` and `analysis` tables are untouched by the
upsert. -/
theorem C6_upsert_resets (db : DBState) (id title source : String)
    (fp : Option String) (dur : Option Int) (now : Nat)
    (v : Video) (hv : v ∈ db.videos) (hid : v.id = id) :
    ({ v with title := title, source := source, status := "todo",
              filepath := fp, duration_sec := dur, updated_at := now,
              retries := 0, error := none } : Video)
      ∈ (add_video db id title source fp dur now).videos
    ∧ (add_video db id title source fp dur now).subtitles = db.subtitles
    ∧ (add_video db id title source fp dur now).analysis = db.analysis := by
  have hany : db.videos.any (fun w => w.id == id) = true :=
    List.any_eq_true.mpr ⟨v, hv, beq_iff_eq.mpr hid⟩
  unfold add_video
  rw [if_pos hany]
  refine ⟨?_, rfl, rfl⟩
  exact List.mem_map.mpr ⟨v, hv, by rw [if_pos (beq_iff_eq.mpr hid)]⟩

/-- C6 witness: re-upserting a `done` item with prior segment and analysis
rows. -/
theorem C6_upsert_resets_witness :
    (rowDone ∈ richDB.videos ∧ rowDone.id = "x") ∧
    (({ rowDone with title := "new", source := "youtube", status := "todo",
                     filepath := none, duration_sec := none, updated_at := 9,
                     retries := 0, error := none } : Video)
       ∈ (add_video richDB "x" "new" "youtube" none none 9).videos
     ∧ (add_video richDB "x" "new" "youtube" none none 9).subtitles = richDB.subtitles
     ∧ (add_video richDB "x" "new" "youtube" none none 9).analysis = richDB.analysis) :=
  ⟨⟨by decide, by decide⟩,
   C6_upsert_resets richDB "x" "new" "youtube" none none 9 rowDone
     (by decide) (by decide)⟩

/-- C9: upserting an existing id rewrites the row in place — `created_at`
(the claim-order sort key) and the table position are unchanged for every
row, so a re-submitted item keeps its place in the oldest-created-first
order. -/
theorem C9_upsert_keeps_created_at (db : DBState) (id title source : String)
    (fp : Option String) (dur : Option Int) (now : Nat)
    (v : Video) (hv : v ∈ db.videos) (hid : v.id = id) :
    (add_video db id title source fp dur now).videos.map
        (fun w => (w.id, w.created_at))
      = db.videos.map (fun w => (w.id, w.created_at)) := by
  have hany : db.videos.any (fun w => w.id == id) = true :=
    List.any_eq_true.mpr ⟨v, hv, beq_iff_eq.mpr hid⟩
  unfold add_video
  rw [if_pos hany]
  dsimp only
  rw [List.map_map]
  refine List.map_congr_left ?_
  intro w hw
  dsimp only [Function.comp]
  split <;> rfl

/-- C9 witness: the re-upserted `done` item keeps id and creation time. -/
theorem C9_upsert_keeps_created_at_witness :
    (rowDone ∈ richDB.videos ∧ rowDone.id = "x") ∧
    (add_video richDB "x" "new" "youtube" none none 9).videos.map
        (fun w => (w.id, w.created_at))
      = richDB.videos.map (fun w => (w.id, w.created_at)) :=
  ⟨⟨by decide, by decide⟩,
   C9_upsert_keeps_created_at richDB "x" "new" "youtube" none none 9 rowDone
     (by decide) (by decide)⟩

/-- C2: in full-pipeline mode the worker marks the item `done`
unconditionally after the ingest section. When Graphiti ingest fails,
`ingest_transcription` records status `failed` with the error, but the loop
then overwrites the row with status `done` and `error = NULL`; when the
transcript artifact is not found, nothing is recorded and the row still
ends `done`. The claim (done only when all three stages succeeded, failures
always left visible in the error column) is what the code's own comment
"Mark as done if we've completed all steps" intends, and the code
contradicts it. -/
theorem C2_full_pipeline_done_despite_failure :
    ((fullPipelineIngestTail oneItemDB "v" (some "downloads/v_transcription.md")
        (.ok false) 5).videos
      = [⟨"v", "t", "youtube", "done", 0, none, none, 1, 5, none⟩])
    ∧ ((ingest_transcription_model oneItemDB "v" "downloads/v_transcription.md"
          true (.ok false) 5).1.videos
      = [⟨"v", "t", "youtube", "failed", 0, none, none, 1, 5,
          some "Failed to ingest transcription into Graphiti"⟩])
    ∧ ((fullPipelineIngestTail oneItemDB "v" none (.ok false) 5).videos
      = [⟨"v", "t", "youtube", "done", 0, none, none, 1, 5, none⟩]) :=
  ⟨by decide, by decide, by decide⟩

/-- C5: whenever the transcript artifact derived from the media path exists,
`Transcriber.transcribe` resolves to its artifact-parsing mode — the fresh
offmute/DeepGram computation is never invoked — and the transcribe stage of
the pipeline invokes exactly that parsing mode. -/
theorem C5_idempotent_resume (fs : List String) (db : DBState)
    (vid filePath backend : String) (now : Nat)
    (h : fs.contains (transcriptionPathOf filePath) = true) :
    transcriberTranscribe fs backend filePath
        = .parseArtifact (transcriptionPathOf filePath)
    ∧ (transcribe_video_model fs db vid filePath backend now).2
        = .parseArtifact (transcriptionPathOf filePath) := by
  constructor
  · unfold transcriberTranscribe
    rw [if_pos h]
  · unfold transcribe_video_model
    rw [if_pos h]
    dsimp only
    unfold transcriberTranscribe
    rw [if_pos h]

/-- C5 witness: with `a_transcription.md` on disk, transcribing `a.mp4`
parses the artifact. -/
theorem C5_idempotent_resume_witness :
    ["a_transcription.md"].contains (transcriptionPathOf "a.mp4") = true ∧
    (transcriberTranscribe ["a_transcription.md"] "offmute" "a.mp4"
        = .parseArtifact (transcriptionPathOf "a.mp4")
     ∧ (transcribe_video_model ["a_transcription.md"] oneItemDB "v" "a.mp4"
          "offmute" 5).2
        = .parseArtifact (transcriptionPathOf "a.mp4")) :=
  ⟨by decide,
   C5_idempotent_resume ["a_transcription.md"] oneItemDB "v" "a.mp4" "offmute" 5
     (by decide)⟩

/-- C8 counterexample: with the file system holding only
`downloads/vid1x/notes_transcription.md`, resolution for id `chan1/vid1`
returns that file by the recursive search even though its NAME
(`notes_transcription.md`) does not contain the leaf `vid1` — the match is
on the whole path string (`video_id in str(transcription_file)`), so the
claim's step (d), which searches for an artifact file whose name contains
the leaf, describes a procedure that here finds nothing. -/
theorem C8_name_vs_path_counterexample :
    resolveTranscription "downloads" "chan1" "vid1"
        ["downloads/vid1x/notes_transcription.md"]
      = some "downloads/vid1x/notes_transcription.md"
    ∧ strHasSub "vid1" (basenameStr "downloads/vid1x/notes_transcription.md") = false
    ∧ resolveTranscriptionSpec "downloads" "chan1" "vid1"
        ["downloads/vid1x/notes_transcription.md"] = none :=
  ⟨by decide, by decide, by decide⟩

/-- C8 amended: for a composite id `scope/leaf`, resolution tries, in this
fixed order and stopping at the first existing file: (a)
`root/scope/leaf_transcription.md`; (b) `root/` joined with the full id —
which under POSIX path joining is the same path as (a); (c)
`root/leaf_transcription.md`; (d) the first file of the recursive search
under `root` whose FULL PATH STRING contains `leaf`. Resolution is a pure
function of the id and the directory listing, hence deterministic. -/
theorem C8_resolution_order (root scope leaf : String) (fs : List String) :
    resolveTranscription root scope leaf fs
      = (if fs.contains (root ++ "/" ++ scope ++ "/" ++ leaf ++ "_transcription.md") then
           some (root ++ "/" ++ scope ++ "/" ++ leaf ++ "_transcription.md")
         else if fs.contains (root ++ "/" ++ leaf ++ "_transcription.md") then
           some (root ++ "/" ++ leaf ++ "_transcription.md")
         else (globTranscriptions root fs).find? (fun f => strHasSub leaf f))
    ∧ root ++ "/" ++ (scope ++ "/" ++ leaf) ++ "_transcription.md"
        = root ++ "/" ++ scope ++ "/" ++ leaf ++ "_transcription.md" := by
  have hba : root ++ "/" ++ (scope ++ "/" ++ leaf) ++ "_transcription.md"
      = root ++ "/" ++ scope ++ "/" ++ leaf ++ "_transcription.md" := by
    simp [String.append_assoc]
  refine ⟨?_, hba⟩
  simp only [resolveTranscription]
  rw [hba]
  by_cases h1 : fs.contains (root ++ "/" ++ scope ++ "/" ++ leaf ++ "_transcription.md") = true
  · rw [if_pos h1, if_pos h1]
  · rw [if_neg h1, if_neg h1]

lemma find_append (p : Subtitle → Bool) (l₁ l₂ : List Subtitle) :
    (l₁ ++ l₂).find? p
      = match l₁.find? p with
        | some x => some x
        | none => l₂.find? p := by
  induction l₁ with
  | nil => rfl
  | cons a l ih =>
    by_cases hpa : p a = true
    · rw [List.cons_append, List.find?_cons_of_pos _ hpa, List.find?_cons_of_pos _ hpa]
    · rw [List.cons_append, List.find?_cons_of_neg _ hpa, List.find?_cons_of_neg _ hpa]
      exact ih

lemma find_filter_keep (p q : Subtitle → Bool) (hpq : ∀ s, p s = true → q s = true)
    (l : List Subtitle) : (l.filter q).find? p = l.find? p := by
  induction l with
  | nil => rfl
  | cons a l ih =>
    by_cases hqa : q a = true
    · rw [List.filter_cons_of_pos hqa]
      by_cases hpa : p a = true
      · rw [List.find?_cons_of_pos _ hpa, List.find?_cons_of_pos _ hpa]
      · rw [List.find?_cons_of_neg _ hpa, List.find?_cons_of_neg _ hpa]
        exact ih
    · have hpa : ¬ p a = true := fun hp => hqa (hpq a hp)
      rw [List.filter_cons_of_neg hqa, List.find?_cons_of_neg _ hpa]
      exact ih

lemma find_filter_none (p q : Subtitle → Bool) (h : ∀ s, p s = true → ¬ q s = true)
    (l : List Subtitle) : (l.filter q).find? p = none := by
  induction l with
  | nil => rfl
  | cons a l ih =>
    by_cases hqa : q a = true
    · have hpa : ¬ p a = true := fun hp => h a hp hqa
      rw [List.filter_cons_of_pos hqa, List.find?_cons_of_neg _ hpa]
      exact ih
    · rw [List.filter_cons_of_neg hqa]
      exact ih

lemma lookupSub_save_self (db : DBState) (vid : String) (a b : Int) (txt : String) :
    lookupSub (save_subtitle db vid a b txt) vid a
      = some ⟨vid, a, b, txt⟩ := by
  unfold lookupSub save_subtitle
  dsimp only
  rw [find_append, find_filter_none (fun s => s.video_id == vid && s.start_sec == a)
        (fun s => !(s.video_id == vid && s.start_sec == a)) (fun s hs => by simp [hs])]
  show List.find? (fun s => s.video_id == vid && s.start_sec == a)
      [(⟨vid, a, b, txt⟩ : Subtitle)] = some (⟨vid, a, b, txt⟩ : Subtitle)
  rw [List.find?_cons_of_pos _ (by simp)]

lemma lookupSub_save_other (db : DBState) (vid vid' : String) (a b : Int)
    (txt : String) (t : Int) (hne : ¬(vid' = vid ∧ t = a)) :
    lookupSub (save_subtitle db vid a b txt) vid' t = lookupSub db vid' t := by
  unfold lookupSub save_subtitle
  dsimp only
  rw [find_append, find_filter_keep (fun s => s.video_id == vid' && s.start_sec == t)
        (fun s => !(s.video_id == vid && s.start_sec == a)) ?hpq]
  case hpq =>
    intro s hs
    simp only [Bool.and_eq_true, beq_iff_eq] at hs
    have hfalse : ¬ (s.video_id == vid && s.start_sec == a) = true := by
      intro hq
      simp only [Bool.and_eq_true, beq_iff_eq] at hq
      exact hne ⟨hs.1.symm.trans hq.1, hs.2.symm.trans hq.2⟩
    show (!(s.video_id == vid && s.start_sec == a)) = true
    cases hb : (s.video_id == vid && s.start_sec == a) with
    | false => rfl
    | true => exact absurd hb hfalse
  cases hfind : db.subtitles.find? (fun s => s.video_id == vid' && s.start_sec == t) with
  | some x => rfl
  | none =>
    show List.find? (fun s => s.video_id == vid' && s.start_sec == t)
        [(⟨vid, a, b, txt⟩ : Subtitle)] = none
    rw [List.find?_cons_of_neg _ ?hp]
    · rfl
    case hp =>
      intro hp
      simp only [Bool.and_eq_true, beq_iff_eq] at hp
      exact hne ⟨hp.1.symm, hp.2.symm⟩

lemma foldl_last (t : Int) (segs : List (ℚ × ℚ × String)) :
    ∀ init : Option (ℚ × ℚ × String),
      segs.foldl (fun acc s => if pyInt s.1 = t then some s else acc) init
        = match segs.foldl (fun acc s => if pyInt s.1 = t then some s else acc) none with
          | some s' => some s'
          | none => init := by
  induction segs with
  | nil => intro init; rfl
  | cons a l ih =>
    intro init
    rw [List.foldl_cons, List.foldl_cons]
    by_cases ha : pyInt a.1 = t
    · rw [if_pos ha, if_pos ha, ih (some a)]
      cases hnone : l.foldl (fun acc s => if pyInt s.1 = t then some s else acc) none with
      | some s' => rfl
      | none => rfl
    · rw [if_neg ha, if_neg ha]
      exact ih init

lemma lastSegWith_cons (t : Int) (s : ℚ × ℚ × String)
    (segs : List (ℚ × ℚ × String)) :
    lastSegWith t (s :: segs)
      = match lastSegWith t segs with
        | some s' => some s'
        | none => if pyInt s.1 = t then some s else none := by
  unfold lastSegWith
  rw [List.foldl_cons]
  exact foldl_last t segs _

lemma persistSegments_lookup (vid : String) (t : Int)
    (segs : List (ℚ × ℚ × String)) :
    ∀ db : DBState,
      lookupSub (persistSegments db vid segs) vid t
        = match lastSegWith t segs with
          | some s => some ⟨vid, t, pyInt s.2.1, s.2.2⟩
          | none => lookupSub db vid t := by
  induction segs with
  | nil => intro db; rfl
  | cons s segs ih =>
    intro db
    have hstep : persistSegments db vid (s :: segs)
        = persistSegments (save_subtitle db vid (pyInt s.1) (pyInt s.2.1) s.2.2)
            vid segs := rfl
    rw [hstep, ih, lastSegWith_cons]
    cases hlast : lastSegWith t segs with
    | some s' => rfl
    | none =>
      by_cases ha : pyInt s.1 = t
      · rw [if_pos ha, ← ha]
        exact lookupSub_save_self db vid (pyInt s.1) (pyInt s.2.1) s.2.2
      · rw [if_neg ha]
        exact lookupSub_save_other db vid vid (pyInt s.1) (pyInt s.2.1) s.2.2 t
          (fun hc => ha hc.2.symm)

lemma save_subtitle_length (db : DBState) (vid : String) (a b : Int)
    (txt : String) :
    (save_subtitle db vid a b txt).subtitles.length ≤ db.subtitles.length + 1 := by
  unfold save_subtitle
  dsimp only
  rw [List.length_append]
  have h := List.length_filter_le
    (fun s => !(s.video_id == vid && s.start_sec == a)) db.subtitles
  simpa using Nat.add_le_add_right h 1

lemma persistSegments_length (vid : String) (segs : List (ℚ × ℚ × String)) :
    ∀ db : DBState,
      (persistSegments db vid segs).subtitles.length
        ≤ db.subtitles.length + segs.length := by
  induction segs with
  | nil => intro db; simp [persistSegments]
  | cons s segs ih =>
    intro db
    have h1 := ih (save_subtitle db vid (pyInt s.1) (pyInt s.2.1) s.2.2)
    have h2 := save_subtitle_length db vid (pyInt s.1) (pyInt s.2.1) s.2.2
    have hstep : persistSegments db vid (s :: segs)
        = persistSegments (save_subtitle db vid (pyInt s.1) (pyInt s.2.1) s.2.2)
            vid segs := rfl
    rw [hstep]
    calc (persistSegments (save_subtitle db vid (pyInt s.1) (pyInt s.2.1) s.2.2)
            vid segs).subtitles.length
        ≤ (save_subtitle db vid (pyInt s.1) (pyInt s.2.1) s.2.2).subtitles.length
            + segs.length := h1
      _ ≤ (db.subtitles.length + 1) + segs.length := Nat.add_le_add_right h2 _
      _ = db.subtitles.length + (s :: segs).length := by
          simp only [List.length_cons]
          omega

/-- C10: the transcribe stage persists each segment with `int()`-truncated
start/end seconds into a table keyed `(video_id, start_sec)` with
replace-on-conflict, so the stored row for any key carries the data of the
LAST segment whose start truncates to that key; the row count is bounded by
the segment count, and on a two-segment transcription whose starts both
truncate to 0 only the later segment survives (1 row from 2 segments). -/
theorem C10_segment_truncation (db : DBState) (vid : String)
    (segs : List (ℚ × ℚ × String)) (t : Int) :
    (lookupSub (persistSegments db vid segs) vid t
      = match lastSegWith t segs with
        | some s => some ⟨vid, t, pyInt s.2.1, s.2.2⟩
        | none => lookupSub db vid t)
    ∧ (persistSegments db vid segs).subtitles.length
        ≤ db.subtitles.length + segs.length
    ∧ (pyInt (mkRat 1 5) = 0 ∧ pyInt (mkRat 7 10) = 0
       ∧ (persistSegments ⟨[], [], []⟩ "v"
            [(mkRat 1 5, (1 : ℚ), "a"), (mkRat 7 10, mkRat 3 2, "b")]).subtitles
          = [⟨"v", 0, 1, "b"⟩]) :=
  ⟨persistSegments_lookup vid t segs db, persistSegments_length vid segs db,
   by decide, by decide, by decide⟩









